import Mathlib

/-!
Verification development for the SweetSwoot video ingestion and
adaptive-playback pipeline.

The definitions below are shallow embeddings of the TypeScript sources:

* LivepeerService.ts — public-gateway URL rewriting, playback/thumbnail URL
  derivation, and the fixed-interval asset-status polling loop;
* FFmpegService.ts — the in-browser HLS conversion over the ffmpeg.wasm
  virtual filesystem, modelled with an explicit list of filesystem entries
  and a trace of engine operations;
* LivepeerPlayer.tsx with CustomVideoPlayer.tsx and VideoServiceProvider.tsx
  — the playback fallback state machine and watch-event logging, modelled as
  a transition system over an explicit session state.
-/

namespace SweetSwoot

/-! ### URL rewriting: LivepeerService.convertToPublicGateways (LivepeerService.ts:115-153)

Strings are handled through their character lists; the helpers below give
the exact semantics of the JavaScript operations used by the source:
substring containment for String.prototype.includes, and the first match of
the regular expression /\/ipfs\/([^\/?#]+)/ for String.prototype.match.
-/

/-- Containment of a character list as a contiguous substring, the semantics
of JavaScript String.prototype.includes. -/
def hasSub (sub : List Char) : List Char → Bool
  | [] => sub.isEmpty
  | c :: t => sub.isPrefixOf (c :: t) || hasSub sub t

/-- Character list of the literal "/ipfs/". -/
def ipfsSeg : List Char := ("/ipfs/").toList

/-- Character list of the literal "ipfs://". -/
def ipfsScheme : List Char := ("ipfs://").toList

/-- Character list of the public gateway base "https://ipfs.io/ipfs/". -/
def publicGateway : List Char := ("https://ipfs.io/ipfs/").toList

/-- Characters admitted in the captured group of the regular expression
/\/ipfs\/([^\/?#]+)/: anything except '/', '?' and '#'. -/
def cidChar (c : Char) : Bool := !(c == '/' || c == '?' || c == '#')

/-- First match of the regular expression /\/ipfs\/([^\/?#]+)/: scan left to
right for an occurrence of "/ipfs/" followed by at least one character other
than '/', '?' or '#', and capture the maximal run of such characters at the
first position where the whole pattern matches. -/
def extractCidFrom : List Char → Option (List Char)
  | [] => none
  | c :: t =>
    if ipfsSeg.isPrefixOf (c :: t) then
      let run := ((c :: t).drop 6).takeWhile cidChar
      if run.isEmpty then extractCidFrom t else some run
    else extractCidFrom t

/-- Shallow embedding of LivepeerService.convertToPublicGateways
(LivepeerService.ts:115-153) on character lists. An empty URL, or a URL that
contains neither "/ipfs/" nor "ipfs://", is returned as is; a URL starting
with "ipfs://" takes the remainder after the scheme as the CID (an empty
remainder returns the original URL, since an empty capture is falsy in the
source); any other URL takes the first regex capture as the CID, returning
the original URL when there is no match. -/
def convertToPublicGatewaysL (url : List Char) : List Char :=
  if url.isEmpty || (!hasSub ipfsSeg url && !hasSub ipfsScheme url) then url
  else if ipfsScheme.isPrefixOf url then
    let cid := url.drop 7
    if cid.isEmpty then url else publicGateway ++ cid
  else
    match extractCidFrom url with
    | none => url
    | some cid => publicGateway ++ cid

/-- LivepeerService.convertToPublicGateways on strings. -/
def convertToPublicGateways (url : String) : String :=
  (convertToPublicGatewaysL url.toList).asString

/-- An HTTP or HTTPS URL, read literally from the claim wording: the URL
starts with the http or https scheme. -/
def isHttpUrl (url : String) : Bool :=
  ("http://").toList.isPrefixOf url.toList || ("https://").toList.isPrefixOf url.toList

/-- The claim's notion of a provider-specific IPFS form: the ipfs scheme, or
an HTTP URL with a CID extractable after an "/ipfs/" path segment. -/
def claimIpfsForm (url : String) : Bool :=
  ipfsScheme.isPrefixOf url.toList || (isHttpUrl url && (extractCidFrom url.toList).isSome)

/-- Amended description of the rewriting, written from the corrected claim:
a URL with the ipfs scheme and a nonempty remainder is rewritten to the
public gateway followed by that remainder; any other URL from which a CID is
extractable after an "/ipfs/" segment — whether or not its scheme is HTTP —
is rewritten to the public gateway followed by that CID; every other URL is
returned unchanged. -/
def resolvePublicUrlSpecL (url : List Char) : List Char :=
  if ipfsScheme.isPrefixOf url then
    if (url.drop 7).isEmpty then url else publicGateway ++ url.drop 7
  else
    match extractCidFrom url with
    | none => url
    | some cid => publicGateway ++ cid

/-- Amended rewriting on strings. -/
def resolvePublicUrlSpec (url : String) : String :=
  (resolvePublicUrlSpecL url.toList).asString

/-! ### URL derivation: LivepeerService.getPlaybackUrl and getThumbnailUrl -/

/-- LivepeerService.getPlaybackUrl (LivepeerService.ts:533-538): pure string
derivation of the HLS manifest URL from a playback identifier. -/
def getPlaybackUrl (playbackId : String) : String :=
  if playbackId = "" then ""
  else "https://lax-prod-catalyst-0.lp-playback.studio/hls/" ++ playbackId ++ "/index.m3u8"

/-- LivepeerService.getThumbnailUrl (LivepeerService.ts:546-554): pure string
derivation of the thumbnail URL from a playback identifier; the source's
default for the time argument is 0, and a query is appended only for a
strictly positive time. -/
def getThumbnailUrl (playbackId : String) (time : Nat) : String :=
  if playbackId = "" then ""
  else
    let timeParam := if 0 < time then "?time=" ++ toString time else ""
    "https://lax-prod-catalyst-0.lp-playback.studio/hls/" ++ playbackId ++ "/thumbnail.jpg" ++ timeParam

/-! ### Asset polling: LivepeerService.waitForAssetReady (LivepeerService.ts:437-528)

The remote is abstracted as the sequence of getAsset results, one per
attempt number (starting at 1): none models an asset-not-found result, and
a returned asset carries the status phase string examined by the loop.
-/

/-- Result of one getAsset call as examined by the polling loop. -/
structure PolledAsset where
  assetId : String
  phase : String
deriving DecidableEq

/-- Outcome of the polling loop, carrying the number of getAsset calls
actually made. -/
inductive PollOutcome where
  | ready (a : PolledAsset) (calls : Nat)
  | timeoutFail (calls : Nat)
deriving DecidableEq

/-- Number of status-endpoint calls made by a finished run. -/
def PollOutcome.calls : PollOutcome → Nat
  | .ready _ c => c
  | .timeoutFail c => c

/-- The loop's terminal-success test (LivepeerService.ts:476). -/
def isTerminalReady (phase : String) : Bool := phase == "ready" || phase == "completed"

/-- One polling loop of LivepeerService.waitForAssetReady, structured by the
remaining fuel (maxAttempts minus the calls already made). A not-found
result sleeps and retries; a ready or completed phase returns the asset; a
failed phase throws at LivepeerService.ts:507, but that throw is caught by
the catch at line 511, which sleeps and retries like any other attempt; any
other phase sleeps and retries. Exhausted fuel throws the timeout error. -/
def waitLoop (responses : Nat → Option PolledAsset) : Nat → Nat → PollOutcome
  | 0, calls => .timeoutFail calls
  | fuel + 1, calls =>
    match responses (calls + 1) with
    | none => waitLoop responses fuel (calls + 1)
    | some a =>
      if isTerminalReady a.phase then .ready a (calls + 1)
      else if a.phase == "failed" then
        waitLoop responses fuel (calls + 1)
      else
        waitLoop responses fuel (calls + 1)

/-- LivepeerService.waitForAssetReady over an abstract response sequence. -/
def waitForAssetReady (responses : Nat → Option PolledAsset) (maxAttempts : Nat) : PollOutcome :=
  waitLoop responses maxAttempts 0

/-- Source default for maxAttempts (LivepeerService.ts:437). -/
def waitForAssetReadyDefaultMaxAttempts : Nat := 30

/-- Source default for the polling interval in milliseconds
(LivepeerService.ts:437). -/
def waitForAssetReadyDefaultIntervalMs : Nat := 5000

/-- Response sequence whose first attempt observes the terminal Failed
status and whose later attempts observe Ready. -/
def failedThenReadyResponses : Nat → Option PolledAsset := fun n =>
  if n = 1 then some ⟨"asset-1", "failed"⟩ else some ⟨"asset-1", "ready"⟩

/-! ### Local transcode: FFmpegService.convertToHLS (FFmpegService.ts:125-271)

The ffmpeg.wasm engine is abstracted by an EngineBehavior describing how its
two exec invocations behave; the virtual filesystem is the list of file
names present, and every engine interaction is recorded in an operation
trace.
-/

/-- Failure modes of the local conversion, named after the spec taxonomy;
the source throws plain Error values with corresponding messages. -/
inductive LocalTranscodeError where
  | engineLoadFailed
  | tooLarge
  | encodeFailed
  | thumbnailReadFailed
deriving DecidableEq

/-- Return value of FFmpegService.convertToHLS (the HLSOutput interface). -/
structure HLSOutput where
  playlistUrl : String
  segmentUrls : List String
  thumbnailUrl : String
  duration : Nat
deriving DecidableEq

/-- One interaction with the loaded engine: a virtual-filesystem write, an
exec invocation (with the files it creates), a read, or a delete. -/
inductive EngineOp where
  | writeFile (name : String)
  | execCmd (outputs : List String)
  | readFile (name : String)
  | deleteFile (name : String)
deriving DecidableEq

/-- Abstract behaviour of the engine during one conversion: whether the
thumbnail exec succeeds, whether the HLS exec succeeds, and how many segment
files the HLS exec produces. -/
structure EngineBehavior where
  thumbnailOk : Bool
  hlsOk : Bool
  segmentCount : Nat
deriving DecidableEq

/-- Safety limit on probed segment indices (FFmpegService.ts:219). -/
def MAX_SEGMENTS : Nat := 100

/-- Input file name for a given fileId (FFmpegService.ts:135). -/
def inputFileName (fileId : String) : String := "input-" ++ fileId ++ ".mp4"

/-- Playlist file name for a given fileId (FFmpegService.ts:136). -/
def outputFileName (fileId : String) : String := "playlist-" ++ fileId ++ ".m3u8"

/-- Segment file name for a given fileId and index (FFmpegService.ts:137). -/
def segmentFileName (fileId : String) (i : Nat) : String :=
  "segment-" ++ fileId ++ "-" ++ toString i ++ ".ts"

/-- Thumbnail file name for a given fileId (FFmpegService.ts:138). -/
def thumbnailFileName (fileId : String) : String := "thumbnail-" ++ fileId ++ ".jpg"

/-- State after a conversion call: its result, the virtual filesystem
contents, and the trace of engine operations performed by the call. -/
structure ConvertRun where
  result : Except LocalTranscodeError HLSOutput
  vfs : List String
  ops : List EngineOp

/-- Shallow embedding of FFmpegService.convertToHLS (FFmpegService.ts:125-271).
loadOk is the outcome of the lazy engine load awaited by ensureLoaded; the
call starts from the virtual filesystem vfs0. Control flow mirrors the
source: load failure throws; a file larger than 100 MiB throws before any
write to the virtual filesystem; the input is written; the thumbnail exec is
best-effort (its failure is caught and conversion continues); the HLS exec
writes the playlist and all produced segments, and its failure propagates
with no cleanup; the playlist is read, then the thumbnail is read — which
throws when thumbnail generation had failed, since the read at
FFmpegService.ts:212 is unguarded; segments are collected by probing indices
up to MAX_SEGMENTS; finally only the input file is deleted
(FFmpegService.ts:259) and the output is returned with the duration field
still holding its fallback value 60 (FFmpegService.ts:155), which is never
updated from the probed media. -/
def convertToHLS (loadOk : Bool) (beh : EngineBehavior) (fileId : String)
    (fileSize : Nat) (vfs0 : List String) : ConvertRun :=
  if loadOk = false then ⟨.error .engineLoadFailed, vfs0, []⟩
  else if 100 * 1024 * 1024 < fileSize then ⟨.error .tooLarge, vfs0, []⟩
  else
    let input := inputFileName fileId
    let thumb := thumbnailFileName fileId
    let playlist := outputFileName fileId
    let vfs1 := vfs0 ++ [input]
    let ops1 := [EngineOp.writeFile input]
    let vfs2 := if beh.thumbnailOk then vfs1 ++ [thumb] else vfs1
    let ops2 := ops1 ++ [EngineOp.execCmd (if beh.thumbnailOk then [thumb] else [])]
    if beh.hlsOk = false then
      ⟨.error .encodeFailed, vfs2, ops2 ++ [EngineOp.execCmd []]⟩
    else
      let allSegs := (List.range beh.segmentCount).map (segmentFileName fileId)
      let vfs3 := vfs2 ++ [playlist] ++ allSegs
      let ops3 := ops2 ++ [EngineOp.execCmd (playlist :: allSegs)] ++ [EngineOp.readFile playlist]
      if beh.thumbnailOk = false then
        ⟨.error .thumbnailReadFailed, vfs3, ops3 ++ [EngineOp.readFile thumb]⟩
      else
        let collected := min beh.segmentCount MAX_SEGMENTS
        let segReads := (List.range collected).map (fun i => EngineOp.readFile (segmentFileName fileId i))
        let ops4 := ops3 ++ [EngineOp.readFile thumb] ++ segReads ++ [EngineOp.deleteFile input]
        ⟨.ok
          { playlistUrl := "blob:" ++ playlist
            segmentUrls := (List.range collected).map (fun i => "blob:" ++ segmentFileName fileId i)
            thumbnailUrl := "blob:" ++ thumb
            duration := 60 },
          vfs3.erase input, ops4⟩

/-! ### Playback session state machine: LivepeerPlayer.tsx with
CustomVideoPlayer.tsx and VideoServiceProvider.tsx

One playback session is one mounted LivepeerPlayer. Its configuration is
fixed for the session; its mutable state is the useCustomFallback flag, the
error message, the watch-event dedup flag, and the list of watch events
actually sent to the metadata collaborator (each recorded by its completed
flag).
-/

/-- Fallback ladder tiers, ordered. -/
inductive Tier where
  | adaptiveRemote
  | directRemote
  | localTranscode
deriving DecidableEq

/-- Position of a tier on the ladder. -/
def Tier.idx : Tier → Nat
  | .adaptiveRemote => 0
  | .directRemote => 1
  | .localTranscode => 2

/-- Session-fixed configuration: the beta-mode policy flag from
VideoServiceProvider, the videoId prop, and whether the backend actor is
available. -/
structure SessionConfig where
  betaModeEnabled : Bool
  videoId : String
  hasActor : Bool
deriving DecidableEq

/-- VideoServiceProvider.isDirectFallbackAllowed
(VideoServiceProvider.tsx:456-460): direct fallback is allowed exactly in
beta mode. -/
def isDirectFallbackAllowed (cfg : SessionConfig) : Bool := cfg.betaModeEnabled

/-- Mutable session state of a mounted LivepeerPlayer. -/
structure PlayerState where
  useCustomFallback : Bool
  errorMsg : Option String
  viewLogged : Bool
  sentEvents : List Bool
deriving DecidableEq

/-- State of a freshly mounted player. -/
def initialState : PlayerState := ⟨false, none, false, []⟩

/-- Classification of an hls.js error event by its type field. -/
inductive HlsErrorKind where
  | networkError
  | mediaError
  | otherError
deriving DecidableEq

/-- The fields of an hls.js error event examined by the handler. -/
structure HlsErrorData where
  kind : HlsErrorKind
  details : String
  fatal : Bool
  responseCode : Option Nat
deriving DecidableEq

/-- Events a mounted session can receive: an hls.js error, a play start, a
natural end of stream, a pause, or a click on the "Try alternate player"
button. The Bool on the logging events says whether the backend call made by
logViewEvent fails; the failure is caught and only logged, so it must not
influence the transition. -/
inductive PlayerEvent where
  | hlsError (d : HlsErrorData)
  | playStart (logFails : Bool)
  | endedNatural (logFails : Bool)
  | pauseEvent
  | retryClick
deriving DecidableEq

/-- LivepeerPlayer.logViewEvent (LivepeerPlayer.tsx:72-95): returns
immediately when there is no actor, no videoId, or a watch event was already
logged this session; otherwise sets the dedup flag first and sends one watch
event with the given completed flag. A failure of the send is caught and
logged; the dedup flag is deliberately not reset. -/
def logViewEvent (cfg : SessionConfig) (completed : Bool) (s : PlayerState) : PlayerState :=
  if cfg.hasActor = false ∨ cfg.videoId = "" ∨ s.viewLogged = true then s
  else { s with viewLogged := true, sentEvents := s.sentEvents ++ [completed] }

/-- The hls.js ERROR handler (LivepeerPlayer.tsx:252-362). Non-fatal errors
only log. Fatal network errors: manifest parsing/load failures and
401/403 responses set the error message and switch to the custom fallback;
other network errors retry the load without changing state. Fatal media
errors attempt in-place recovery. Other fatal errors set the error message,
and the four listed unrecoverable detail codes additionally switch to the
custom fallback. -/
def handleHlsError (d : HlsErrorData) (s : PlayerState) : PlayerState :=
  if d.fatal = false then s
  else
    match d.kind with
    | .networkError =>
      if d.details = "manifestParsingError" ∨ d.details = "manifestLoadError" then
        { s with errorMsg := some "Manifest error - attempting fallback player",
                 useCustomFallback := true }
      else if d.responseCode = some 401 ∨ d.responseCode = some 403 then
        { s with errorMsg := some "Authentication error - attempting fallback player",
                 useCustomFallback := true }
      else s
    | .mediaError => s
    | .otherError =>
      if d.details = "bufferStalledError" ∨ d.details = "bufferNudgeOnStall" ∨
          d.details = "internalException" ∨ d.details = "levelLoadError" then
        { s with errorMsg := some ("Playback error: " ++ d.details),
                 useCustomFallback := true }
      else
        { s with errorMsg := some ("Playback error: " ++ d.details) }

/-- One step of the session: the ERROR handler for hls.js errors; the play
and ended listeners (LivepeerPlayer.tsx:409-421) call logViewEvent with
completed set to false and true respectively; pause only forwards a
callback; the "Try alternate player" button (LivepeerPlayer.tsx:488-495) is
rendered only on the error view with a nonempty videoId, and sets the custom
fallback flag. -/
def step (cfg : SessionConfig) (e : PlayerEvent) (s : PlayerState) : PlayerState :=
  match e with
  | .hlsError d => handleHlsError d s
  | .playStart _ => logViewEvent cfg false s
  | .endedNatural _ => logViewEvent cfg true s
  | .pauseEvent => s
  | .retryClick =>
    if cfg.videoId ≠ "" ∧ s.errorMsg.isSome ∧ s.useCustomFallback = false then
      { s with useCustomFallback := true }
    else s

/-- State of a session after a list of events, from a fresh mount. -/
def run (cfg : SessionConfig) (es : List PlayerEvent) : PlayerState :=
  es.foldl (fun s e => step cfg e s) initialState

/-- What the component renders (LivepeerPlayer.tsx:444-568): with the custom
fallback flag set and a nonempty videoId, the CustomVideoPlayer when the
policy permits direct fallback, and the terminal failure view when it does
not; otherwise the error view with the retry button when an error message is
set; otherwise the hls.js video element. -/
inductive RenderOutcome where
  | fallbackPlayer (t : Tier)
  | terminalError
  | errorRetry
  | videoElement
deriving DecidableEq

/-- The playback mode CustomVideoPlayer uses (CustomVideoPlayer.tsx:807):
direct blob playback when beta mode is on and direct fallback is allowed,
and the in-browser FFmpeg conversion path otherwise. -/
def customPlayerTier (cfg : SessionConfig) : Tier :=
  if cfg.betaModeEnabled = true ∧ isDirectFallbackAllowed cfg = true then .directRemote
  else .localTranscode

/-- Render decision of LivepeerPlayer (LivepeerPlayer.tsx:444-568). -/
def render (cfg : SessionConfig) (s : PlayerState) : RenderOutcome :=
  if s.useCustomFallback = true ∧ cfg.videoId ≠ "" then
    if isDirectFallbackAllowed cfg = true then .fallbackPlayer (customPlayerTier cfg)
    else .terminalError
  else if s.errorMsg.isSome ∧ s.useCustomFallback = false then .errorRetry
  else .videoElement

/-- The fallback-ladder tier a session state is playing on: the tier of the
rendered fallback player, and the initial AdaptiveRemote tier otherwise. -/
def tierOf (cfg : SessionConfig) (s : PlayerState) : Tier :=
  match render cfg s with
  | .fallbackPlayer t => t
  | _ => .adaptiveRemote

/-! ### Theorems -/

/-- Claim C9: for every non-empty playbackId, the manifest-URL derivation
returns exactly the fixed hls index.m3u8 pattern, and the thumbnail-URL
derivation at time 0 returns exactly the thumbnail.jpg pattern, with a
time query appended for strictly positive times; both are pure string
derivations from the playback identifier with no network call. -/
theorem getPlaybackUrl_getThumbnailUrl_pattern (pid : String) (t : Nat) (h : pid ≠ "") :
    getPlaybackUrl pid =
      "https://lax-prod-catalyst-0.lp-playback.studio/hls/" ++ pid ++ "/index.m3u8" ∧
    getThumbnailUrl pid 0 =
      "https://lax-prod-catalyst-0.lp-playback.studio/hls/" ++ pid ++ "/thumbnail.jpg" ∧
    (0 < t → getThumbnailUrl pid t =
      "https://lax-prod-catalyst-0.lp-playback.studio/hls/" ++ pid ++
        "/thumbnail.jpg?time=" ++ toString t) := by
  refine ⟨by simp [getPlaybackUrl, h], ?_, ?_⟩
  · simp [getThumbnailUrl, h, String.append_empty]
  · intro ht
    simp only [getThumbnailUrl, if_neg h, if_pos ht]
    rw [String.append_assoc, String.append_assoc, String.append_assoc]
    rfl

/-- Witness for the URL-pattern theorem at a concrete playback identifier. -/
theorem getPlaybackUrl_getThumbnailUrl_pattern_witness :
    getPlaybackUrl "abc" =
      "https://lax-prod-catalyst-0.lp-playback.studio/hls/" ++ "abc" ++ "/index.m3u8" ∧
    getThumbnailUrl "abc" 0 =
      "https://lax-prod-catalyst-0.lp-playback.studio/hls/" ++ "abc" ++ "/thumbnail.jpg" ∧
    getThumbnailUrl "abc" 5 =
      "https://lax-prod-catalyst-0.lp-playback.studio/hls/" ++ "abc" ++
        "/thumbnail.jpg?time=" ++ toString 5 :=
  have h := getPlaybackUrl_getThumbnailUrl_pattern "abc" 5 (by decide)
  ⟨h.1, h.2.1, h.2.2 (by decide)⟩

/-- Every polling run makes at most as many status calls as it has fuel. -/
theorem waitLoop_calls_le (responses : Nat → Option PolledAsset) :
    ∀ fuel calls, (waitLoop responses fuel calls).calls ≤ calls + fuel := by
  intro fuel
  induction fuel with
  | zero => intro calls; simp [waitLoop, PollOutcome.calls]
  | succ n ih =>
    intro calls
    have hn := ih (calls + 1)
    simp only [waitLoop]
    cases responses (calls + 1) with
    | none => exact le_trans hn (by omega)
    | some a =>
      dsimp only
      by_cases ht : isTerminalReady a.phase = true
      · rw [if_pos ht]
        simp only [PollOutcome.calls]
        omega
      · rw [if_neg ht]
        split <;> exact le_trans hn (by omega)

/-- Every polling run ends in a ready asset with a terminal-success phase or
in the timeout error. -/
theorem waitLoop_shape (responses : Nat → Option PolledAsset) :
    ∀ fuel calls,
      (∃ a c, waitLoop responses fuel calls = .ready a c ∧ isTerminalReady a.phase = true) ∨
      (∃ c, waitLoop responses fuel calls = .timeoutFail c) := by
  intro fuel
  induction fuel with
  | zero => intro calls; exact Or.inr ⟨calls, rfl⟩
  | succ n ih =>
    intro calls
    simp only [waitLoop]
    cases responses (calls + 1) with
    | none => exact ih (calls + 1)
    | some a =>
      by_cases ht : isTerminalReady a.phase
      · exact Or.inl ⟨a, calls + 1, by simp [ht], ht⟩
      · by_cases hf : a.phase == "failed" <;> simpa [ht, hf] using ih (calls + 1)

/-- Claim C2: waitForAssetReady makes at most maxAttempts calls to the
status endpoint and always terminates, either returning a ready asset or
raising the timeout error; the source defaults are 30 attempts at a 5000 ms
interval. -/
theorem waitForAssetReady_bounded_and_terminates
    (responses : Nat → Option PolledAsset) (maxAttempts : Nat) :
    (waitForAssetReady responses maxAttempts).calls ≤ maxAttempts ∧
    ((∃ a c, waitForAssetReady responses maxAttempts = .ready a c ∧
        isTerminalReady a.phase = true) ∨
     (∃ c, waitForAssetReady responses maxAttempts = .timeoutFail c)) ∧
    waitForAssetReadyDefaultMaxAttempts = 30 ∧
    waitForAssetReadyDefaultIntervalMs = 5000 := by
  refine ⟨?_, waitLoop_shape responses maxAttempts 0, rfl, rfl⟩
  simpa [waitForAssetReady] using waitLoop_calls_le responses maxAttempts 0

/-- Claim C1, evaluated at the failing input: when the first polling attempt
observes the terminal Failed status, the loop does not stop and raises no
remote-failure error — the throw at LivepeerService.ts:507 is swallowed by
the catch at line 511 — and a second status call is made, here returning the
asset as ready after 2 calls. -/
theorem waitForAssetReady_continues_after_failed :
    failedThenReadyResponses 1 = some ⟨"asset-1", "failed"⟩ ∧
    waitForAssetReady failedThenReadyResponses 30 = .ready ⟨"asset-1", "ready"⟩ 2 := by
  exact ⟨rfl, by decide⟩

/-- Claim C10: every successful local conversion returns a duration of 60
seconds, the fallback value initialised at FFmpegService.ts:155 and never
updated from the probed media. -/
theorem convertToHLS_duration_constant (loadOk : Bool) (beh : EngineBehavior)
    (fileId : String) (fileSize : Nat) (vfs0 : List String) (out : HLSOutput)
    (h : (convertToHLS loadOk beh fileId fileSize vfs0).result = .ok out) :
    out.duration = 60 := by
  unfold convertToHLS at h
  repeat' split at h
  all_goals simp_all
  all_goals
    obtain rfl := h
    rfl

/-- Witness for the duration theorem: a concrete successful conversion. -/
theorem convertToHLS_duration_constant_witness :
    ({ playlistUrl := "blob:" ++ outputFileName "0",
       segmentUrls := ["blob:" ++ segmentFileName "0" 0],
       thumbnailUrl := "blob:" ++ thumbnailFileName "0",
       duration := 60 } : HLSOutput).duration = 60 :=
  convertToHLS_duration_constant true ⟨true, true, 1⟩ "0" 1000 [] _ rfl

/-- Claim C4: a file strictly larger than 100 MiB makes the conversion fail
with the TooLarge error while the virtual filesystem is untouched and no
engine operation has been performed. -/
theorem convertToHLS_tooLarge_before_any_write (beh : EngineBehavior) (fileId : String)
    (fileSize : Nat) (vfs0 : List String) (h : 100 * 1024 * 1024 < fileSize) :
    (convertToHLS true beh fileId fileSize vfs0).result = .error .tooLarge ∧
    (convertToHLS true beh fileId fileSize vfs0).vfs = vfs0 ∧
    (convertToHLS true beh fileId fileSize vfs0).ops = [] := by
  refine ⟨?_, ?_, ?_⟩ <;> simp [convertToHLS, h]

/-- Witness for the TooLarge theorem at a file one byte over the limit. -/
theorem convertToHLS_tooLarge_witness :
    (convertToHLS true ⟨true, true, 1⟩ "0" (100 * 1024 * 1024 + 1) []).result =
      .error .tooLarge ∧
    (convertToHLS true ⟨true, true, 1⟩ "0" (100 * 1024 * 1024 + 1) []).vfs = [] ∧
    (convertToHLS true ⟨true, true, 1⟩ "0" (100 * 1024 * 1024 + 1) []).ops = [] :=
  convertToHLS_tooLarge_before_any_write ⟨true, true, 1⟩ "0" (100 * 1024 * 1024 + 1) []
    (by norm_num)

/-- Claim C3 counterexample: a successful conversion of a small file leaves
the thumbnail, the playlist and one segment file in the virtual filesystem —
three entries, not zero — because only the input file is deleted
(FFmpegService.ts:259); and a conversion whose HLS exec fails leaves the
input file and the thumbnail behind — the failure path deletes nothing. -/
theorem convertToHLS_leaves_vfs_entries :
    (convertToHLS true ⟨true, true, 1⟩ "0" 1000 []).vfs =
      [thumbnailFileName "0", outputFileName "0", segmentFileName "0" 0] ∧
    (convertToHLS true ⟨true, true, 1⟩ "0" 1000 []).vfs ≠ [] ∧
    (convertToHLS true ⟨true, true, 1⟩ "0" 1000 []).result =
      .ok { playlistUrl := "blob:" ++ outputFileName "0",
            segmentUrls := ["blob:" ++ segmentFileName "0" 0],
            thumbnailUrl := "blob:" ++ thumbnailFileName "0",
            duration := 60 } ∧
    (convertToHLS true ⟨true, false, 0⟩ "1" 1000 []).result = .error .encodeFailed ∧
    (convertToHLS true ⟨true, false, 0⟩ "1" 1000 []).vfs =
      [inputFileName "1", thumbnailFileName "1"] ∧
    (convertToHLS true ⟨true, false, 0⟩ "1" 1000 []).vfs ≠ [] :=
  ⟨by decide, by decide, rfl, rfl, by decide, by decide⟩

/-- Claim C3 amended: after a call to convertToHLS, virtual filesystem
entries created by the call remain. On the success path exactly the input
file is deleted while the thumbnail, the playlist and every segment file
stay; on each of the failure paths nothing is deleted: the load-failure and
too-large paths leave the filesystem untouched, the encode-failure paths
leave the input (and the thumbnail when it was generated), the unguarded
thumbnail read leaves the input, the playlist and every segment; and no
error-returning run ever performs a delete operation. -/
theorem convertToHLS_cleanup_only_input (beh : EngineBehavior) (fileId : String)
    (fileSize : Nat) (vfs0 : List String)
    (hfresh : inputFileName fileId ∉ vfs0) :
    (fileSize ≤ 100 * 1024 * 1024 → beh.thumbnailOk = true → beh.hlsOk = true →
      (convertToHLS true beh fileId fileSize vfs0).vfs =
        vfs0 ++ [thumbnailFileName fileId, outputFileName fileId] ++
          (List.range beh.segmentCount).map (segmentFileName fileId)) ∧
    (fileSize ≤ 100 * 1024 * 1024 → beh.thumbnailOk = true → beh.hlsOk = false →
      (convertToHLS true beh fileId fileSize vfs0).result = .error .encodeFailed ∧
      (convertToHLS true beh fileId fileSize vfs0).vfs =
        vfs0 ++ [inputFileName fileId, thumbnailFileName fileId]) ∧
    (fileSize ≤ 100 * 1024 * 1024 → beh.thumbnailOk = false → beh.hlsOk = false →
      (convertToHLS true beh fileId fileSize vfs0).result = .error .encodeFailed ∧
      (convertToHLS true beh fileId fileSize vfs0).vfs = vfs0 ++ [inputFileName fileId]) ∧
    (fileSize ≤ 100 * 1024 * 1024 → beh.thumbnailOk = false → beh.hlsOk = true →
      (convertToHLS true beh fileId fileSize vfs0).result = .error .thumbnailReadFailed ∧
      (convertToHLS true beh fileId fileSize vfs0).vfs =
        vfs0 ++ [inputFileName fileId, outputFileName fileId] ++
          (List.range beh.segmentCount).map (segmentFileName fileId)) ∧
    ((convertToHLS false beh fileId fileSize vfs0).result = .error .engineLoadFailed ∧
      (convertToHLS false beh fileId fileSize vfs0).vfs = vfs0) ∧
    (100 * 1024 * 1024 < fileSize →
      (convertToHLS true beh fileId fileSize vfs0).result = .error .tooLarge ∧
      (convertToHLS true beh fileId fileSize vfs0).vfs = vfs0) ∧
    (∀ (loadOk : Bool) (er : LocalTranscodeError) (n : String),
      (convertToHLS loadOk beh fileId fileSize vfs0).result = .error er →
      EngineOp.deleteFile n ∉ (convertToHLS loadOk beh fileId fileSize vfs0).ops) := by
  refine ⟨?_, ?_, ?_, ?_, ?_, ?_, ?_⟩
  · intro hsize hthumb hh
    have hlt : ¬(100 * 1024 * 1024 < fileSize) := Nat.not_lt.mpr hsize
    simp only [convertToHLS, hthumb, hh, hlt, if_neg, if_pos, if_true, if_false,
      Bool.true_eq_false, reduceIte]
    simp only [List.append_assoc, List.singleton_append, List.cons_append, List.nil_append]
    rw [List.erase_append_right _ hfresh, List.erase_cons_head]
  · intro hsize hthumb hh
    have hlt : ¬(100 * 1024 * 1024 < fileSize) := Nat.not_lt.mpr hsize
    constructor <;> simp [convertToHLS, hthumb, hh, hlt]
  · intro hsize hthumb hh
    have hlt : ¬(100 * 1024 * 1024 < fileSize) := Nat.not_lt.mpr hsize
    constructor <;> simp [convertToHLS, hthumb, hh, hlt]
  · intro hsize hthumb hh
    have hlt : ¬(100 * 1024 * 1024 < fileSize) := Nat.not_lt.mpr hsize
    constructor <;> simp [convertToHLS, hthumb, hh, hlt, List.append_assoc]
  · constructor <;> simp [convertToHLS]
  · intro hbig
    constructor <;> simp [convertToHLS, hbig]
  · intro loadOk er n
    unfold convertToHLS
    repeat' split
    all_goals intro h
    all_goals simp_all [List.mem_map]

/-- Witness for the amended cleanup theorem: a concrete successful
conversion keeping its thumbnail, playlist and segment; a concrete encode
failure keeping its input and thumbnail; and a concrete failing run whose
operation trace performs no delete. -/
theorem convertToHLS_cleanup_only_input_witness :
    (convertToHLS true ⟨true, true, 1⟩ "0" 1000 []).vfs =
      [] ++ [thumbnailFileName "0", outputFileName "0"] ++
        (List.range 1).map (segmentFileName "0") ∧
    ((convertToHLS true ⟨true, false, 2⟩ "1" 1000 []).result = .error .encodeFailed ∧
      (convertToHLS true ⟨true, false, 2⟩ "1" 1000 []).vfs =
        [] ++ [inputFileName "1", thumbnailFileName "1"]) ∧
    ((convertToHLS true ⟨false, true, 2⟩ "2" 1000 []).result = .error .thumbnailReadFailed ∧
      (convertToHLS true ⟨false, true, 2⟩ "2" 1000 []).vfs =
        [] ++ [inputFileName "2", outputFileName "2"] ++
          (List.range 2).map (segmentFileName "2")) ∧
    EngineOp.deleteFile (inputFileName "0") ∉
      (convertToHLS false ⟨true, true, 1⟩ "0" 1000 []).ops :=
  ⟨(convertToHLS_cleanup_only_input ⟨true, true, 1⟩ "0" 1000 [] (by simp)).1
      (by norm_num) rfl rfl,
   (convertToHLS_cleanup_only_input ⟨true, false, 2⟩ "1" 1000 [] (by simp)).2.1
      (by norm_num) rfl rfl,
   (convertToHLS_cleanup_only_input ⟨false, true, 2⟩ "2" 1000 [] (by simp)).2.2.2.1
      (by norm_num) rfl rfl,
   (convertToHLS_cleanup_only_input ⟨true, true, 1⟩ "0" 1000 [] (by simp)).2.2.2.2.2.2
      false .engineLoadFailed (inputFileName "0") rfl⟩

/-- A list that has sub as a prefix contains it as a substring. -/
theorem hasSub_of_isPrefixOf (sub l : List Char) (h : sub.isPrefixOf l = true) :
    hasSub sub l = true := by
  cases l with
  | nil =>
    cases sub with
    | nil => rfl
    | cons c t => simp [List.isPrefixOf] at h
  | cons c t => simp [hasSub, h]

/-- A successful regex extraction implies the URL contains "/ipfs/". -/
theorem hasSub_ipfsSeg_of_extract (l cid : List Char)
    (h : extractCidFrom l = some cid) : hasSub ipfsSeg l = true := by
  induction l with
  | nil => simp [extractCidFrom] at h
  | cons c t ih =>
    by_cases hp : ipfsSeg.isPrefixOf (c :: t) = true
    · simp [hasSub, hp]
    · rw [extractCidFrom, if_neg hp] at h
      simp [hasSub, ih h]

/-- The two rewriting descriptions agree on every character list. -/
theorem convertToPublicGatewaysL_eq_spec (l : List Char) :
    convertToPublicGatewaysL l = resolvePublicUrlSpecL l := by
  unfold convertToPublicGatewaysL resolvePublicUrlSpecL
  by_cases hg : (l.isEmpty || (!hasSub ipfsSeg l && !hasSub ipfsScheme l)) = true
  · rw [if_pos hg]
    rcases Bool.or_eq_true_iff.mp hg with he | hsub
    · obtain rfl : l = [] := List.isEmpty_iff.mp he
      simp [extractCidFrom, List.isPrefixOf, ipfsScheme]
    · obtain ⟨h1, h2⟩ := Bool.and_eq_true_iff.mp hsub
      have hseg : hasSub ipfsSeg l = false := by
        revert h1; cases hasSub ipfsSeg l <;> simp
      have hsch : hasSub ipfsScheme l = false := by
        revert h2; cases hasSub ipfsScheme l <;> simp
      have hnp : ipfsScheme.isPrefixOf l = false := by
        cases hpf : ipfsScheme.isPrefixOf l with
        | false => rfl
        | true => rw [hasSub_of_isPrefixOf _ _ hpf] at hsch; cases hsch
      have hne : extractCidFrom l = none := by
        cases hex : extractCidFrom l with
        | none => rfl
        | some cid => rw [hasSub_ipfsSeg_of_extract _ _ hex] at hseg; cases hseg
      simp [hnp, hne]
  · rw [if_neg hg]

/-- Claim C8 amended: the rewriting equals the declarative description in
resolvePublicUrlSpec — the ipfs scheme with a nonempty remainder is sent to
the public gateway, any URL with a CID extractable after an "/ipfs/"
segment is sent to the public gateway whatever its scheme, and everything
else is returned unchanged. -/
theorem convertToPublicGateways_eq_spec (url : String) :
    convertToPublicGateways url = resolvePublicUrlSpec url := by
  unfold convertToPublicGateways resolvePublicUrlSpec
  rw [convertToPublicGatewaysL_eq_spec]

/-- Claim C8 counterexample: a URL that is neither of the ipfs scheme nor an
HTTP URL — so outside the claim's rewritable forms — is nevertheless
rewritten to the public gateway instead of being returned unchanged,
because the source never checks the scheme. -/
theorem convertToPublicGateways_rewrites_non_http :
    claimIpfsForm "gateway.tld/ipfs/QmDemo" = false ∧
    convertToPublicGateways "gateway.tld/ipfs/QmDemo" = "https://ipfs.io/ipfs/QmDemo" ∧
    convertToPublicGateways "gateway.tld/ipfs/QmDemo" ≠ "gateway.tld/ipfs/QmDemo" :=
  ⟨by decide, by decide, by decide⟩

/-- No session event ever clears the custom-fallback flag. -/
theorem step_useCustomFallback_mono (cfg : SessionConfig) (e : PlayerEvent)
    (s : PlayerState) (h : s.useCustomFallback = true) :
    (step cfg e s).useCustomFallback = true := by
  cases e with
  | hlsError d =>
    simp only [step, handleHlsError]
    repeat' split
    all_goals simp [h]
  | playStart b =>
    simp only [step, logViewEvent]
    split <;> simp [h]
  | endedNatural b =>
    simp only [step, logViewEvent]
    split <;> simp [h]
  | pauseEvent => exact h
  | retryClick =>
    simp only [step]
    split <;> simp_all

/-- Closed form of the tier of a session state: the DirectRemote fallback
tier exactly when the fallback flag is set, the videoId is nonempty and the
policy flag permits direct fallback; the initial tier otherwise. -/
theorem tierOf_eq (cfg : SessionConfig) (s : PlayerState) :
    tierOf cfg s =
      if s.useCustomFallback = true ∧ cfg.videoId ≠ "" ∧ cfg.betaModeEnabled = true
      then Tier.directRemote else Tier.adaptiveRemote := by
  by_cases hA : s.useCustomFallback = true <;>
    by_cases hB : cfg.videoId = "" <;>
      by_cases hC : cfg.betaModeEnabled = true <;>
        simp [tierOf, render, customPlayerTier, isDirectFallbackAllowed, hA, hB, hC]
  all_goals
    split
    · rename_i x t heq
      split at heq <;> simp_all
    · rfl

/-- Running extra events continues from the state the earlier events ended
in. -/
theorem run_append (cfg : SessionConfig) (es1 es2 : List PlayerEvent) :
    run cfg (es1 ++ es2) = es2.foldl (fun s e => step cfg e s) (run cfg es1) := by
  simp [run, List.foldl_append]

/-- A set fallback flag survives any further event sequence. -/
theorem foldl_useCustomFallback_mono (cfg : SessionConfig) (es : List PlayerEvent) :
    ∀ s : PlayerState, s.useCustomFallback = true →
      (es.foldl (fun s e => step cfg e s) s).useCustomFallback = true := by
  induction es with
  | nil => intro s h; exact h
  | cons e t ih =>
    intro s h
    exact ih _ (step_useCustomFallback_mono cfg e s h)

/-- Every reachable tier sits at position at most 1 on the ladder. -/
theorem tier_idx_le_one (cfg : SessionConfig) (s : PlayerState) :
    (tierOf cfg s).idx ≤ 1 := by
  rw [tierOf_eq]
  split <;> simp [Tier.idx]

/-- Claim C5: over any session, the tier sequence on the fallback ladder is
non-decreasing — after any further events the tier is at least the tier
after any prefix — a single event advances the tier by at most one rung, a
non-fatal (recoverable) error never changes the tier, and over a whole
session the tier advances at most twice from the initial AdaptiveRemote. -/
theorem tier_ladder_invariant (cfg : SessionConfig) (es1 es2 : List PlayerEvent) :
    (tierOf cfg (run cfg es1)).idx ≤ (tierOf cfg (run cfg (es1 ++ es2))).idx ∧
    (∀ (s : PlayerState) (e : PlayerEvent),
      (tierOf cfg (step cfg e s)).idx ≤ (tierOf cfg s).idx + 1) ∧
    (∀ (s : PlayerState) (k : HlsErrorKind) (det : String) (rc : Option Nat),
      tierOf cfg (step cfg (.hlsError ⟨k, det, false, rc⟩) s) = tierOf cfg s) ∧
    (tierOf cfg (run cfg (es1 ++ es2))).idx ≤ (tierOf cfg initialState).idx + 2 := by
  refine ⟨?_, ?_, ?_, ?_⟩
  · rw [run_append]
    by_cases hf : (run cfg es1).useCustomFallback = true
    · have h2 := foldl_useCustomFallback_mono cfg es2 _ hf
      rw [tierOf_eq, tierOf_eq, hf, h2]
    · rw [tierOf_eq (s := run cfg es1), if_neg (by simp [hf])]
      exact Nat.zero_le _
  · intro s e
    exact le_trans (tier_idx_le_one cfg _) (by omega)
  · intro s k det rc
    have : step cfg (.hlsError ⟨k, det, false, rc⟩) s = s := by
      simp [step, handleHlsError]
    rw [this]
  · have h0 : (tierOf cfg initialState).idx = 0 := by
      rw [tierOf_eq]
      simp [initialState, Tier.idx]
    rw [h0]
    exact le_trans (tier_idx_le_one cfg _) (by omega)

/-- Claim C6: with the direct-fallback policy flag off and a nonempty
videoId, a session whose fallback flag is set renders the terminal failure
view while staying on the initial tier, never renders the fallback player,
a fatal manifest error from the initial tier leads directly to the terminal
failure view, and in general the fallback player is rendered only when the
policy flag permits direct fallback. -/
theorem fallback_skipped_when_policy_disallows (cfg : SessionConfig) (s : PlayerState)
    (hbeta : cfg.betaModeEnabled = false) (hvid : cfg.videoId ≠ "") :
    (s.useCustomFallback = true →
      render cfg s = .terminalError ∧ tierOf cfg s = .adaptiveRemote) ∧
    (∀ t, render cfg s ≠ .fallbackPlayer t) ∧
    (∀ (det : String) (rc : Option Nat),
      (det = "manifestParsingError" ∨ det = "manifestLoadError") →
      render cfg (step cfg (.hlsError ⟨.networkError, det, true, rc⟩) s) = .terminalError) ∧
    (∀ (cfg' : SessionConfig) (s' : PlayerState) (t : Tier),
      render cfg' s' = .fallbackPlayer t → isDirectFallbackAllowed cfg' = true) := by
  refine ⟨?_, ?_, ?_, ?_⟩
  · intro hf
    constructor
    · simp [render, isDirectFallbackAllowed, hbeta, hvid, hf]
    · rw [tierOf_eq]
      simp [hbeta]
  · intro t
    unfold render
    repeat' split
    all_goals simp_all [isDirectFallbackAllowed, hbeta]
  · intro det rc hdet
    have hstep : (step cfg (.hlsError ⟨.networkError, det, true, rc⟩) s).useCustomFallback
        = true := by
      simp [step, handleHlsError, hdet]
    simp [render, isDirectFallbackAllowed, hbeta, hvid, hstep]
  · intro cfg' s' t hr
    by_cases ha : isDirectFallbackAllowed cfg' = true
    · exact ha
    · exfalso
      revert hr
      unfold render
      repeat' split
      all_goals simp_all

/-- Witness for the policy theorem: with beta mode off, the session that
saw a fatal manifest error renders the terminal failure view, and a state
with the fallback flag set renders it as well. -/
theorem fallback_skipped_witness :
    render ⟨false, "vid-1", true⟩ ⟨true, some "e", false, []⟩ = .terminalError ∧
    render ⟨false, "vid-1", true⟩
      (step ⟨false, "vid-1", true⟩
        (.hlsError ⟨.networkError, "manifestLoadError", true, none⟩)
        ⟨false, none, false, []⟩) = .terminalError :=
  ⟨((fallback_skipped_when_policy_disallows ⟨false, "vid-1", true⟩
      ⟨true, some "e", false, []⟩ rfl (by decide)).1 rfl).1,
   (fallback_skipped_when_policy_disallows ⟨false, "vid-1", true⟩
      ⟨false, none, false, []⟩ rfl (by decide)).2.2.1 "manifestLoadError" none (Or.inr rfl)⟩

/-- Claim C7 counterexample: in a session that plays to its natural end, the
start notification is sent but the end-of-stream completion notification is
not — the single dedup flag set by the first notification suppresses it —
so the claimed completion notification never goes out. -/
theorem watch_event_completion_suppressed :
    (run ⟨false, "vid-1", true⟩ [.playStart false, .endedNatural false]).sentEvents =
      [false] ∧
    (run ⟨false, "vid-1", true⟩ [.playStart false, .endedNatural false]).sentEvents.count
      true = 0 :=
  ⟨by decide, by decide⟩

/-- Notification bookkeeping invariant of a session state. -/
theorem step_watch_inv (cfg : SessionConfig) (e : PlayerEvent) (s : PlayerState)
    (h1 : s.viewLogged = false → s.sentEvents = [])
    (h2 : s.sentEvents.length ≤ 1) :
    ((step cfg e s).viewLogged = false → (step cfg e s).sentEvents = []) ∧
    (step cfg e s).sentEvents.length ≤ 1 := by
  cases e with
  | hlsError d =>
    have : (step cfg (.hlsError d) s).viewLogged = s.viewLogged ∧
        (step cfg (.hlsError d) s).sentEvents = s.sentEvents := by
      simp only [step, handleHlsError]
      repeat' split
      all_goals simp
    rw [this.1, this.2]
    exact ⟨h1, h2⟩
  | playStart b =>
    simp only [step, logViewEvent]
    split
    · exact ⟨h1, h2⟩
    · next hcond =>
      push_neg at hcond
      have := h1 (by simpa using hcond.2.2)
      simp [this]
  | endedNatural b =>
    simp only [step, logViewEvent]
    split
    · exact ⟨h1, h2⟩
    · next hcond =>
      push_neg at hcond
      have := h1 (by simpa using hcond.2.2)
      simp [this]
  | pauseEvent => exact ⟨h1, h2⟩
  | retryClick =>
    simp only [step]
    split <;> exact ⟨h1, h2⟩

/-- The invariant holds after any event sequence. -/
theorem run_watch_inv (cfg : SessionConfig) (es : List PlayerEvent) :
    ∀ s : PlayerState,
      (s.viewLogged = false → s.sentEvents = []) → s.sentEvents.length ≤ 1 →
      ((es.foldl (fun s e => step cfg e s) s).viewLogged = false →
        (es.foldl (fun s e => step cfg e s) s).sentEvents = []) ∧
      (es.foldl (fun s e => step cfg e s) s).sentEvents.length ≤ 1 := by
  induction es with
  | nil => intro s h1 h2; exact ⟨h1, h2⟩
  | cons e t ih =>
    intro s h1 h2
    obtain ⟨g1, g2⟩ := step_watch_inv cfg e s h1 h2
    exact ih _ g1 g2

/-- Claim C7 amended: a session sends at most one watch-event notification
in total — hence at most one start and at most one completion notification —
sent on the first of play start or natural end of stream to reach the
collaborator; a failure of the send leaves the transition unchanged, and
the logging events never touch the error message or the fallback flag, so
notification failures are never surfaced to the player UI. -/
theorem watch_event_dedup (cfg : SessionConfig) (es : List PlayerEvent) :
    (run cfg es).sentEvents.length ≤ 1 ∧
    (run cfg es).sentEvents.count false ≤ 1 ∧
    (run cfg es).sentEvents.count true ≤ 1 ∧
    (∀ (s : PlayerState) (b : Bool),
      step cfg (.playStart b) s = step cfg (.playStart false) s) ∧
    (∀ (s : PlayerState) (b : Bool),
      step cfg (.endedNatural b) s = step cfg (.endedNatural false) s) ∧
    (∀ (s : PlayerState) (b : Bool),
      (step cfg (.playStart b) s).errorMsg = s.errorMsg ∧
      (step cfg (.playStart b) s).useCustomFallback = s.useCustomFallback) ∧
    (∀ (s : PlayerState) (b : Bool),
      (step cfg (.endedNatural b) s).errorMsg = s.errorMsg ∧
      (step cfg (.endedNatural b) s).useCustomFallback = s.useCustomFallback) := by
  have hlen : (run cfg es).sentEvents.length ≤ 1 :=
    (run_watch_inv cfg es initialState (fun _ => rfl) (by simp [initialState])).2
  refine ⟨hlen,
    le_trans (List.count_le_length _ _) hlen,
    le_trans (List.count_le_length _ _) hlen, ?_, ?_, ?_, ?_⟩
  · intro s b; rfl
  · intro s b; rfl
  · intro s b
    simp only [step, logViewEvent]
    split <;> simp
  · intro s b
    simp only [step, logViewEvent]
    split <;> simp

end SweetSwoot
